import Mathlib

/-!
Shallow embedding of the snow-math numeric core (ruby-snowmath,
src/ext/snow-math): vec2/vec3/vec4, quaternions, and 3x3/4x4 matrices.

Scalars are modelled as real numbers (the s_float_t scalar of the library
in the double-precision build), sqrt/sin/cos/acos as their Mathlib counterparts,
and out-parameters as explicit arguments threaded through and returned, so
that "output left unchanged" is expressible.  Functions that return an int
status flag are modelled as returning an Int paired with the output buffer.
Each definition is a line-by-line translation of the corresponding C
function, including its quirks (index choices, guard conditions, operand
orders) exactly as written in the source.
-/

namespace Snow

noncomputable section

/-- S_FLOAT_EPSILON from maths_local.h for the double-precision build. -/
def S_FLOAT_EPSILON : ℝ := 1e-9

/-- S_DEG2RAD from maths_local.h, the truncated literal 0.01745329. -/
def S_DEG2RAD : ℝ := 0.01745329

/-- float_is_zero from maths_local.h. -/
def float_is_zero (x : ℝ) : Prop := |x| < S_FLOAT_EPSILON

/-- float_equals from maths_local.h. -/
def float_equals (x y : ℝ) : Prop := float_is_zero (x - y)

/-- vec2_t: two scalars. -/
structure Vec2 where
  x : ℝ
  y : ℝ

/-- vec3_t: three scalars. -/
structure Vec3 where
  x : ℝ
  y : ℝ
  z : ℝ

/-- vec4_t and quat_t: four scalars. -/
structure Vec4 where
  x : ℝ
  y : ℝ
  z : ℝ
  w : ℝ

/-- mat3_t: nine scalars, row-major. -/
structure Mat3 where
  m0 : ℝ
  m1 : ℝ
  m2 : ℝ
  m3 : ℝ
  m4 : ℝ
  m5 : ℝ
  m6 : ℝ
  m7 : ℝ
  m8 : ℝ

/-- mat4_t: sixteen scalars, row-major. -/
structure Mat4 where
  m0 : ℝ
  m1 : ℝ
  m2 : ℝ
  m3 : ℝ
  m4 : ℝ
  m5 : ℝ
  m6 : ℝ
  m7 : ℝ
  m8 : ℝ
  m9 : ℝ
  m10 : ℝ
  m11 : ℝ
  m12 : ℝ
  m13 : ℝ
  m14 : ℝ
  m15 : ℝ

/-- vec2_divide from vec2.c: returns 1 and the quotient when the divisor is
nonzero, otherwise 0 with the output buffer untouched. -/
def vec2_divide (v : Vec2) (divisor : ℝ) (out : Vec2) : Int × Vec2 :=
  if divisor ≠ 0 then
    let d := 1.0 / divisor
    (1, ⟨v.x * d, v.y * d⟩)
  else (0, out)

/-- vec3_dot_product from vec3.c. -/
def vec3_dot_product (left right : Vec3) : ℝ :=
  left.x * right.x + left.y * right.y + left.z * right.z

/-- vec3_length from vec3.c. -/
def vec3_length (v : Vec3) : ℝ :=
  Real.sqrt (v.x * v.x + v.y * v.y + v.z * v.z)

/-- vec3_normalize from vec3.c: the reciprocal magnitude is taken only when
the magnitude is nonzero, otherwise the zero magnitude itself is used as the
scale. -/
def vec3_normalize (v : Vec3) : Vec3 :=
  let mag := vec3_length v
  let mag2 := if mag ≠ 0 then 1.0 / mag else mag
  ⟨v.x * mag2, v.y * mag2, v.z * mag2⟩

/-- vec3_cross_product from vec3.c, with the middle component computed as
left.x * right.z - left.z * right.x exactly as in the source. -/
def vec3_cross_product (left right : Vec3) : Vec3 :=
  ⟨left.y * right.z - left.z * right.y,
   left.x * right.z - left.z * right.x,
   left.x * right.y - left.y * right.x⟩

/-- Standard right-handed cross product by the determinant expansion, as the
specification describes it; for comparison with vec3_cross_product. -/
def vec3_cross_std (left right : Vec3) : Vec3 :=
  ⟨left.y * right.z - left.z * right.y,
   left.z * right.x - left.x * right.z,
   left.x * right.y - left.y * right.x⟩

/-- vec3_scale from vec3.c. -/
def vec3_scale (v : Vec3) (scalar : ℝ) : Vec3 :=
  ⟨v.x * scalar, v.y * scalar, v.z * scalar⟩

/-- vec3_divide from vec3.c: returns 0 and the quotient when the divisor is
nonzero, otherwise 1 with the output buffer untouched. -/
def vec3_divide (v : Vec3) (divisor : ℝ) (out : Vec3) : Int × Vec3 :=
  if divisor ≠ 0 then
    let d := 1.0 / divisor
    (0, ⟨v.x * d, v.y * d, v.z * d⟩)
  else (1, out)

/-- vec3_equals from vec3.c: componentwise float_equals. -/
def vec3_equals (left right : Vec3) : Prop :=
  float_equals left.x right.x ∧ float_equals left.y right.y ∧
  float_equals left.z right.z

/-- vec4_dot_product from vec4.c. -/
def vec4_dot_product (left right : Vec4) : ℝ :=
  left.x * right.x + left.y * right.y + left.z * right.z + left.w * right.w

/-- vec4_scale from vec4.c. -/
def vec4_scale (v : Vec4) (scalar : ℝ) : Vec4 :=
  ⟨v.x * scalar, v.y * scalar, v.z * scalar, v.w * scalar⟩

/-- vec4_add from vec4.c. -/
def vec4_add (left right : Vec4) : Vec4 :=
  ⟨left.x + right.x, left.y + right.y, left.z + right.z, left.w + right.w⟩

/-- vec4_negate from vec4.c. -/
def vec4_negate (v : Vec4) : Vec4 :=
  ⟨-v.x, -v.y, -v.z, -v.w⟩

/-- vec4_divide from vec4.c: returns 1 and the quotient when the divisor is
nonzero, otherwise 0 with the output buffer untouched. -/
def vec4_divide (v : Vec4) (divisor : ℝ) (out : Vec4) : Int × Vec4 :=
  if divisor ≠ 0 then
    let d := 1.0 / divisor
    (1, ⟨v.x * d, v.y * d, v.z * d, v.w * d⟩)
  else (0, out)

/-- vec4_equals from vec4.c: componentwise float_equals.  quat_t shares this
layout, so this is also the quaternion comparison. -/
def vec4_equals (left right : Vec4) : Prop :=
  float_equals left.x right.x ∧ float_equals left.y right.y ∧
  float_equals left.z right.z ∧ float_equals left.w right.w

/-- quat_negate from quat.c. -/
def quat_negate (q : Vec4) : Vec4 :=
  ⟨-q.x, -q.y, -q.z, -q.w⟩

/-- g_mat3_identity from mat3.c. -/
def g_mat3_identity : Mat3 :=
  ⟨1, 0, 0, 0, 1, 0, 0, 0, 1⟩

/-- Element of a mat3_t at a flat row-major index, 0 outside 0..8. -/
def mat3_idx (m : Mat3) (i : ℕ) : ℝ :=
  match i with
  | 0 => m.m0
  | 1 => m.m1
  | 2 => m.m2
  | 3 => m.m3
  | 4 => m.m4
  | 5 => m.m5
  | 6 => m.m6
  | 7 => m.m7
  | 8 => m.m8
  | _ => 0

/-- First row of a mat3_t (the S_MR row of the source). -/
def mat3_rowR (m : Mat3) : Vec3 := ⟨m.m0, m.m1, m.m2⟩

/-- Second row of a mat3_t (the S_MS row of the source). -/
def mat3_rowS (m : Mat3) : Vec3 := ⟨m.m3, m.m4, m.m5⟩

/-- Third row of a mat3_t (the S_MT row of the source). -/
def mat3_rowT (m : Mat3) : Vec3 := ⟨m.m6, m.m7, m.m8⟩

/-- Assemble a mat3_t from its three rows. -/
def mat3_of_rows (r s t : Vec3) : Mat3 :=
  ⟨r.x, r.y, r.z, s.x, s.y, s.z, t.x, t.y, t.z⟩

/-- mat3_transpose from mat3.c. -/
def mat3_transpose (m : Mat3) : Mat3 :=
  ⟨m.m0, m.m3, m.m6, m.m1, m.m4, m.m7, m.m2, m.m5, m.m8⟩

/-- mat3_rotation from mat3.c, translated literally: note that the local xy,
yz and xz already contain one factor of ic and most off-diagonal entries
multiply by ic again, and that out[2] uses z * x * ic + ys. -/
def mat3_rotation (angle x y z : ℝ) : Mat3 :=
  let angle_rad := angle * S_DEG2RAD
  let c := Real.cos angle_rad
  let s := Real.sin angle_rad
  let ic := 1.0 - c
  let xy := x * y * ic
  let yz := y * z * ic
  let xz := x * z * ic
  let xs := s * x
  let ys := s * y
  let zs := s * z
  let xx := x * x
  let yy := y * y
  let zz := z * z
  ⟨xx + c * (1.0 - xx), xy * ic - zs, z * x * ic + ys,
   xy * ic + zs, yy + c * (1.0 - yy), yz * ic - xs,
   xz * ic - ys, yz * ic + xs, zz + c * (1.0 - zz)⟩

/-- mat3_from_quat from mat3.c, translated literally: the local yz is
assigned in[2] * in[2] in the source (not in[1] * in[2]). -/
def mat3_from_quat (q : Vec4) : Mat3 :=
  let xx := q.x * q.x
  let xy := q.x * q.y
  let xz := q.x * q.z
  let yy := q.y * q.y
  let yz := q.z * q.z
  let zz := q.z * q.z
  let wx := q.x * q.w
  let wy := q.y * q.w
  let wz := q.z * q.w
  ⟨1.0 - 2.0 * (yy + zz), 2.0 * (xy - wz), 2.0 * (xz + wy),
   2.0 * (xy + wz), 1.0 - 2.0 * (xx + zz), 2.0 * (yz - wx),
   2.0 * (xz - wy), 2.0 * (yz + wx), 1.0 - 2.0 * (xx + yy)⟩

/-- mat3_multiply from mat3.c: transpose the left operand, replace each row
of the temporary by its dot products with the rows of rhs, then transpose
the temporary into the output. -/
def mat3_multiply (lhs rhs : Mat3) : Mat3 :=
  let temp := mat3_transpose lhs
  let t0 := temp.m0 * rhs.m0 + temp.m1 * rhs.m1 + temp.m2 * rhs.m2
  let t1 := temp.m0 * rhs.m3 + temp.m1 * rhs.m4 + temp.m2 * rhs.m5
  let t2 := temp.m0 * rhs.m6 + temp.m1 * rhs.m7 + temp.m2 * rhs.m8
  let t3 := temp.m3 * rhs.m0 + temp.m4 * rhs.m1 + temp.m5 * rhs.m2
  let t4 := temp.m3 * rhs.m3 + temp.m4 * rhs.m4 + temp.m5 * rhs.m5
  let t5 := temp.m3 * rhs.m6 + temp.m4 * rhs.m7 + temp.m5 * rhs.m8
  let t6 := temp.m6 * rhs.m0 + temp.m7 * rhs.m1 + temp.m8 * rhs.m2
  let t7 := temp.m6 * rhs.m3 + temp.m7 * rhs.m4 + temp.m8 * rhs.m5
  let t8 := temp.m6 * rhs.m6 + temp.m7 * rhs.m7 + temp.m8 * rhs.m8
  mat3_transpose ⟨t0, t1, t2, t3, t4, t5, t6, t7, t8⟩

/-- mat3_rotate_vec3 from mat3.c: transpose lhs, then take dot products of
the rows of the transpose with rhs. -/
def mat3_rotate_vec3 (lhs : Mat3) (rhs : Vec3) : Vec3 :=
  let temp := mat3_transpose lhs
  ⟨temp.m0 * rhs.x + temp.m1 * rhs.y + temp.m2 * rhs.z,
   temp.m3 * rhs.x + temp.m4 * rhs.y + temp.m5 * rhs.z,
   temp.m6 * rhs.x + temp.m7 * rhs.y + temp.m8 * rhs.z⟩

/-- mat3_orthogonal from mat3.c, translated statement by statement: the
cross product written into the first output row is immediately overwritten,
because the following vec3_normalize call reads the INPUT first row (the
source normalizes in[S_MR], not out[S_MR]). -/
def mat3_orthogonal (m : Mat3) : Mat3 :=
  let outT := vec3_normalize (mat3_rowT m)
  let _overwritten := vec3_cross_product (mat3_rowS m) (mat3_rowT m)
  let outR := vec3_normalize (mat3_rowR m)
  let outS := vec3_cross_product (mat3_rowT m) (mat3_rowR m)
  mat3_of_rows outR outS outT

/-- mat3_cofactor from mat3.c. -/
def mat3_cofactor (m : Mat3) : Mat3 :=
  ⟨m.m4 * m.m8 - m.m5 * m.m7,
   -(m.m3 * m.m8 - m.m5 * m.m6),
   m.m3 * m.m7 - m.m4 * m.m6,
   -(m.m1 * m.m8 - m.m2 * m.m7),
   m.m0 * m.m8 - m.m2 * m.m6,
   -(m.m0 * m.m7 - m.m1 * m.m6),
   m.m1 * m.m5 - m.m2 * m.m4,
   -(m.m0 * m.m5 - m.m2 * m.m3),
   m.m0 * m.m4 - m.m1 * m.m3⟩

/-- mat3_determinant from mat3.c. -/
def mat3_determinant (m : Mat3) : ℝ :=
  m.m0 * (m.m4 * m.m8 - m.m5 * m.m7) +
  m.m1 * (m.m5 * m.m6 - m.m3 * m.m8) +
  m.m2 * (m.m3 * m.m7 - m.m4 * m.m6)

/-- Scale every element of a mat3_t, as the final loop of mat3_inverse. -/
def mat3_scale_elems (m : Mat3) (d : ℝ) : Mat3 :=
  ⟨m.m0 * d, m.m1 * d, m.m2 * d, m.m3 * d, m.m4 * d, m.m5 * d,
   m.m6 * d, m.m7 * d, m.m8 * d⟩

/-- mat3_inverse from mat3.c: when the determinant is within EPSILON of
zero it returns 0 before writing anything, so the output buffer is exactly
the unchanged out argument; otherwise it writes the transposed cofactor
matrix scaled by the reciprocal determinant and returns 1. -/
def mat3_inverse (m : Mat3) (out : Mat3) : Int × Mat3 :=
  if ¬ (|mat3_determinant m| < S_FLOAT_EPSILON) then
    (1, mat3_scale_elems (mat3_transpose (mat3_cofactor m))
        (1.0 / mat3_determinant m))
  else (0, out)

/-- mat3_get_column3 from mat3.c; an out-of-range column leaves the output
buffer untouched. -/
def mat3_get_column3 (m : Mat3) (column : ℤ) (out : Vec3) : Vec3 :=
  if column = 0 then ⟨m.m0, m.m3, m.m6⟩
  else if column = 1 then ⟨m.m1, m.m4, m.m7⟩
  else if column = 2 then ⟨m.m2, m.m5, m.m8⟩
  else out

/-- mat3_set_column3 from mat3.c, translated literally: the source writes
out[3],out[4],out[5] for column 1 and out[6],out[7],out[8] for column 2,
which are row positions, not column positions. -/
def mat3_set_column3 (column : ℤ) (v : Vec3) (out : Mat3) : Mat3 :=
  if column = 0 then { out with m0 := v.x, m3 := v.y, m6 := v.z }
  else if column = 1 then { out with m3 := v.x, m4 := v.y, m5 := v.z }
  else if column = 2 then { out with m6 := v.x, m7 := v.y, m8 := v.z }
  else out

/-- quat_from_mat3 from quat.c, translated literally.  The locals m01..m21
name the off-diagonal entries as in the source.  In the non-positive-trace
path the pivot is chosen by comparing mat[8] against mat[0] and then mat[4]
against mat[0]; each branch assigns r = sqrt(...) * 0.5 as the pivot
component, halves the reciprocal only when r is not within EPSILON of zero,
and the index-2 branch takes sqrt of mat[4] - (mat[0] + mat[4]) + 1 exactly
as the source does. -/
def quat_from_mat3 (m : Mat3) : Vec4 :=
  let m01 := m.m3
  let m02 := m.m6
  let m10 := m.m1
  let m12 := m.m7
  let m20 := m.m2
  let m21 := m.m5
  let trace := m.m0 + m.m4 + m.m8
  if 0 < trace then
    let r := Real.sqrt (trace + 1.0)
    let w := r * 0.5
    let r2 := 0.5 / r
    ⟨(m12 - m21) * r2, (m20 - m02) * r2, (m01 - m10) * r2, w⟩
  else if m.m8 > m.m0 then
    let r := Real.sqrt (m.m4 - (m.m0 + m.m4) + 1.0) * 0.5
    let r2 := if |r| < S_FLOAT_EPSILON then r else 0.5 / r
    ⟨(m20 + m02) * r2, (m21 + m12) * r2, r, (m01 - m10) * r2⟩
  else if m.m4 > m.m0 then
    let r := Real.sqrt (m.m4 - (m.m8 + m.m0) + 1.0) * 0.5
    let r2 := if |r| < S_FLOAT_EPSILON then r else 0.5 / r
    ⟨(m10 + m01) * r2, r, (m12 + m21) * r2, (m20 - m02) * r2⟩
  else
    let r := Real.sqrt (m.m0 - (m.m4 + m.m8) + 1.0) * 0.5
    let r2 := if |r| < S_FLOAT_EPSILON then r else 0.5 / r
    ⟨r, (m10 + m01) * r2, (m20 + m02) * r2, (m12 - m21) * r2⟩

/-- quat_slerp from quat.c: absolute dot after the shortest-path negation,
delta clamped to [0,1], angle = acos(dot), and the reciprocal sine taken of
dot itself (not of the angle), exactly as the source computes it. -/
def quat_slerp (qfrom qto : Vec4) (delta : ℝ) : Vec4 :=
  let d := vec4_dot_product qfrom qto
  let dot := if d < 0 then -d else d
  let dv : Vec4 := if d < 0 then ⟨-qto.x, -qto.y, -qto.z, -qto.w⟩ else qto
  let delta2 := min (max delta 0.0) 1.0
  let angle := Real.arccos dot
  let inverse_sin := 1.0 / Real.sin dot
  let scale0 := Real.sin ((1.0 - delta2) * angle) * inverse_sin
  let scale1 := Real.sin (delta2 * angle) * inverse_sin
  ⟨qfrom.x * scale0 + dv.x * scale1,
   qfrom.y * scale0 + dv.y * scale1,
   qfrom.z * scale0 + dv.z * scale1,
   qfrom.w * scale0 + dv.w * scale1⟩

/-- Reference slerp as the specification words it: negate the target when
the dot product is negative (so the working dot is the absolute value),
clamp t to [0,1], set angle = acos(dot), and blend with the scale factors
sin((1-t)*angle)/sin(dot) and sin(t*angle)/sin(dot). -/
def quat_slerp_spec (qfrom qto : Vec4) (t : ℝ) : Vec4 :=
  let d := vec4_dot_product qfrom qto
  let target := if d < 0 then vec4_negate qto else qto
  let dot := |d|
  let tc := min (max t 0.0) 1.0
  let angle := Real.arccos dot
  let scale0 := Real.sin ((1.0 - tc) * angle) / Real.sin dot
  let scale1 := Real.sin (tc * angle) / Real.sin dot
  vec4_add (vec4_scale qfrom scale0) (vec4_scale target scale1)

/-- Pivot index chosen by quat_from_mat3 in its non-positive-trace path:
2 when mat[8] > mat[0], else 1 when mat[4] > mat[0], else 0.  The chain
never compares indices 1 and 2 with each other. -/
def quat_pivot_index (m : Mat3) : ℕ :=
  if m.m8 > m.m0 then 2 else if m.m4 > m.m0 then 1 else 0

/-- Argument of the pivot square root actually used by quat_from_mat3 for
each pivot index; for index 2 it is mat[4] - (mat[0] + mat[4]) + 1, i.e.
1 - mat[0], not the standard mat[8] - (mat[0] + mat[4]) + 1. -/
def quat_pivot_arg (m : Mat3) (i : ℕ) : ℝ :=
  match i with
  | 0 => m.m0 - (m.m4 + m.m8) + 1.0
  | 1 => m.m4 - (m.m8 + m.m0) + 1.0
  | _ => m.m4 - (m.m0 + m.m4) + 1.0

/-- Amended description of the non-positive-trace path of quat_from_mat3:
the pivot component is sqrt(quat_pivot_arg)/2 at the chosen index, the
remaining components are the appropriate off-diagonal sums or differences
scaled by 0.5/r, except that when r is within EPSILON of zero the
reciprocal step is skipped and the unscaled r is used as the factor. -/
def quat_from_mat3_pivot_spec (m : Mat3) : Vec4 :=
  let i := quat_pivot_index m
  let r := Real.sqrt (quat_pivot_arg m i) * 0.5
  let s := if |r| < S_FLOAT_EPSILON then r else 0.5 / r
  match i with
  | 0 => ⟨r, (m.m1 + m.m3) * s, (m.m2 + m.m6) * s, (m.m7 - m.m5) * s⟩
  | 1 => ⟨(m.m1 + m.m3) * s, r, (m.m7 + m.m5) * s, (m.m2 - m.m6) * s⟩
  | _ => ⟨(m.m2 + m.m6) * s, (m.m5 + m.m7) * s, r, (m.m3 - m.m1) * s⟩

/-- g_mat4_identity from mat4.c. -/
def mat4_identity : Mat4 :=
  ⟨1, 0, 0, 0, 0, 1, 0, 0, 0, 0, 1, 0, 0, 0, 0, 1⟩

/-- Element of a mat4_t at a flat row-major index, 0 outside 0..15. -/
def mat4_idx (m : Mat4) (i : ℕ) : ℝ :=
  match i with
  | 0 => m.m0
  | 1 => m.m1
  | 2 => m.m2
  | 3 => m.m3
  | 4 => m.m4
  | 5 => m.m5
  | 6 => m.m6
  | 7 => m.m7
  | 8 => m.m8
  | 9 => m.m9
  | 10 => m.m10
  | 11 => m.m11
  | 12 => m.m12
  | 13 => m.m13
  | 14 => m.m14
  | 15 => m.m15
  | _ => 0

/-- mat4_cofactor from mat4.c: 3x3 minor with signs, over the rows r0 r1 r2
and columns c0 c1 c2 of the matrix. -/
def mat4_cofactor (m : Mat4) (r0 r1 r2 c0 c1 c2 : ℕ) : ℝ :=
  let a := fun l r => mat4_idx m (l * 4 + r)
  a r0 c0 * (a r1 c1 * a r2 c2 - a r2 c1 * a r1 c2) -
  a r0 c1 * (a r1 c0 * a r2 c2 - a r2 c0 * a r1 c2) +
  a r0 c2 * (a r1 c0 * a r2 c1 - a r2 c0 * a r1 c1)

/-- mat4_determinant from mat4.c. -/
def mat4_determinant (m : Mat4) : ℝ :=
  m.m0 * mat4_cofactor m 1 2 3 1 2 3 -
  m.m1 * mat4_cofactor m 1 2 3 0 2 3 +
  m.m2 * mat4_cofactor m 1 2 3 0 1 3 -
  m.m3 * mat4_cofactor m 1 2 3 0 1 2

/-- mat4_adjoint from mat4.c (the non-aliasing branch). -/
def mat4_adjoint (m : Mat4) : Mat4 :=
  ⟨mat4_cofactor m 1 2 3 1 2 3, -mat4_cofactor m 0 2 3 1 2 3,
   mat4_cofactor m 0 1 3 1 2 3, -mat4_cofactor m 0 1 2 1 2 3,
   -mat4_cofactor m 1 2 3 0 2 3, mat4_cofactor m 0 2 3 0 2 3,
   -mat4_cofactor m 0 1 3 0 2 3, mat4_cofactor m 0 1 2 0 2 3,
   mat4_cofactor m 1 2 3 0 1 3, -mat4_cofactor m 0 2 3 0 1 3,
   mat4_cofactor m 0 1 3 0 1 3, -mat4_cofactor m 0 1 2 0 1 3,
   -mat4_cofactor m 1 2 3 0 1 2, mat4_cofactor m 0 2 3 0 1 2,
   -mat4_cofactor m 0 1 3 0 1 2, mat4_cofactor m 0 1 2 0 1 2⟩

/-- Scale every element of a mat4_t, as the final loop of
mat4_inverse_general. -/
def mat4_scale_elems (m : Mat4) (d : ℝ) : Mat4 :=
  ⟨m.m0 * d, m.m1 * d, m.m2 * d, m.m3 * d,
   m.m4 * d, m.m5 * d, m.m6 * d, m.m7 * d,
   m.m8 * d, m.m9 * d, m.m10 * d, m.m11 * d,
   m.m12 * d, m.m13 * d, m.m14 * d, m.m15 * d⟩

/-- mat4_inverse_general from mat4.c: when the 4x4 determinant is within
EPSILON of zero it returns 0 before writing anything, leaving the output
buffer exactly as passed; otherwise the adjoint scaled by the reciprocal
determinant, and 1. -/
def mat4_inverse_general (m : Mat4) (out : Mat4) : Int × Mat4 :=
  if |mat4_determinant m| < S_FLOAT_EPSILON then (0, out)
  else (1, mat4_scale_elems (mat4_adjoint m) (1.0 / mat4_determinant m))

/-- Determinant of the upper-left 3x3 block as mat4_inverse_affine computes
it from its temporary cofactors. -/
def mat4_det3 (m : Mat4) : ℝ :=
  m.m0 * (m.m5 * m.m10 - m.m6 * m.m9) +
  m.m1 * (m.m6 * m.m8 - m.m4 * m.m10) +
  m.m2 * (m.m4 * m.m9 - m.m5 * m.m8)

/-- mat4_inverse_affine from mat4.c: when the 3x3-block determinant is
within EPSILON of zero it writes the identity matrix to the output and
returns 0; otherwise the inverted affine transform and 1.  The translation
row uses the unscaled cofactors exactly as the source does. -/
def mat4_inverse_affine (m : Mat4) (_out : Mat4) : Int × Mat4 :=
  let t0 := m.m5 * m.m10 - m.m6 * m.m9
  let t1 := m.m2 * m.m9 - m.m1 * m.m10
  let t2 := m.m1 * m.m6 - m.m2 * m.m5
  let t4 := m.m6 * m.m8 - m.m4 * m.m10
  let t5 := m.m0 * m.m10 - m.m2 * m.m8
  let t6 := m.m2 * m.m4 - m.m0 * m.m6
  let t8 := m.m4 * m.m9 - m.m5 * m.m8
  let t9 := m.m1 * m.m8 - m.m0 * m.m9
  let t10 := m.m0 * m.m5 - m.m1 * m.m4
  let det := m.m0 * t0 + m.m1 * t4 + m.m2 * t8
  if |det| < S_FLOAT_EPSILON then (0, mat4_identity)
  else
    let d := 1.0 / det
    (1, ⟨t0 * d, t1 * d, t2 * d, 0,
         t4 * d, t5 * d, t6 * d, 0,
         t8 * d, t9 * d, t10 * d, 0,
         -(m.m12 * t0 + m.m13 * t4 + m.m14 * t8),
         -(m.m12 * t1 + m.m13 * t5 + m.m14 * t9),
         -(m.m12 * t2 + m.m13 * t6 + m.m14 * t10),
         1⟩)

/-! Small arithmetic facts about sqrt 2 used by several evaluations. -/

lemma sqrt_two_mul_self : Real.sqrt 2 * Real.sqrt 2 = 2 :=
  Real.mul_self_sqrt (by norm_num)

lemma one_lt_sqrt_two : 1 < Real.sqrt 2 :=
  (Real.lt_sqrt (by norm_num)).mpr (by norm_num)

lemma sqrt_two_lt_two : Real.sqrt 2 < 2 :=
  (Real.sqrt_lt' (by norm_num)).mpr (by norm_num)

/-- C4 counterexample: for left = (1,0,0) and right = (0,0,1) the library
cross product returns (0,1,0), while the standard right-handed determinant
expansion gives (0,-1,0). -/
theorem C4_cross_counterexample :
    vec3_cross_product ⟨1, 0, 0⟩ ⟨0, 0, 1⟩ ≠ vec3_cross_std ⟨1, 0, 0⟩ ⟨0, 0, 1⟩ := by
  simp only [vec3_cross_product, vec3_cross_std, ne_eq, Vec3.mk.injEq]
  norm_num

/-- C4 amended: vec3_cross_product agrees with the standard right-handed
cross product in its first and third components, but its middle component is
the negation of the standard one (the source computes lx*rz - lz*rx). -/
theorem C4_cross_componentwise (l r : Vec3) :
    (vec3_cross_product l r).x = (vec3_cross_std l r).x ∧
    (vec3_cross_product l r).y = -((vec3_cross_std l r).y) ∧
    (vec3_cross_product l r).z = (vec3_cross_std l r).z := by
  refine ⟨rfl, ?_, rfl⟩
  simp only [vec3_cross_product, vec3_cross_std]
  ring

/-- C7: the divide family does not share one success-flag convention:
vec2_divide and vec4_divide return 1 on success and 0 on a zero divisor,
while vec3_divide returns 0 on success and 1 on a zero divisor, although
all three leave the output buffer unchanged on failure. -/
theorem C7_divide_flags :
    (vec2_divide ⟨1, 1⟩ 2 ⟨5, 5⟩).1 = 1 ∧
    (vec3_divide ⟨1, 1, 1⟩ 2 ⟨5, 5, 5⟩).1 = 0 ∧
    (vec4_divide ⟨1, 1, 1, 1⟩ 2 ⟨5, 5, 5, 5⟩).1 = 1 ∧
    vec2_divide ⟨1, 1⟩ 0 ⟨5, 5⟩ = (0, ⟨5, 5⟩) ∧
    vec3_divide ⟨1, 1, 1⟩ 0 ⟨5, 5, 5⟩ = (1, ⟨5, 5, 5⟩) ∧
    vec4_divide ⟨1, 1, 1, 1⟩ 0 ⟨5, 5, 5, 5⟩ = (0, ⟨5, 5, 5, 5⟩) := by
  norm_num [vec2_divide, vec3_divide, vec4_divide]

/-- C10: writing column 1 of the identity matrix with (10,20,30) through
mat3_set_column3 and reading column 1 back with mat3_get_column3 does not
return (10,20,30), and the write also modifies element 3, which lies outside
column 1 (the source writes row positions for columns 1 and 2). -/
theorem C10_set_get_column_bug :
    mat3_get_column3 (mat3_set_column3 1 ⟨10, 20, 30⟩ g_mat3_identity) 1 ⟨0, 0, 0⟩ ≠
      ⟨10, 20, 30⟩ ∧
    (mat3_set_column3 1 ⟨10, 20, 30⟩ g_mat3_identity).m3 ≠ g_mat3_identity.m3 := by
  norm_num [mat3_get_column3, mat3_set_column3, g_mat3_identity, Vec3.mk.injEq]

/-- C2 counterexample: at lhs = [[1,2,3],[4,5,6],[7,8,9]] and rhs =
[[10,11,12],[13,14,15],[16,17,18]], element 0 of mat3_multiply lhs rhs is
138, but the claimed row-by-column product lhs * rhs has 84 there. -/
theorem C2_multiply_counterexample :
    (mat3_multiply ⟨1, 2, 3, 4, 5, 6, 7, 8, 9⟩
      ⟨10, 11, 12, 13, 14, 15, 16, 17, 18⟩).m0 = 138 ∧
    (138 : ℝ) ≠ 1 * 10 + 2 * 13 + 3 * 16 := by
  norm_num [mat3_multiply, mat3_transpose]

/-- C2 amended: for all matrices, element (i,j) of mat3_multiply lhs rhs is
the row-by-column product of rhs with lhs, i.e. mat3_multiply computes the
mathematical product rhs * lhs (equivalently, the composition that applies
rhs first under the row-vector convention of the library); the internal
transposition does not change that result. -/
theorem C2_multiply_is_rhs_times_lhs (lhs rhs : Mat3) (i j : Fin 3) :
    mat3_idx (mat3_multiply lhs rhs) (3 * i.val + j.val) =
      mat3_idx rhs (3 * i.val + 0) * mat3_idx lhs (3 * 0 + j.val) +
      mat3_idx rhs (3 * i.val + 1) * mat3_idx lhs (3 * 1 + j.val) +
      mat3_idx rhs (3 * i.val + 2) * mat3_idx lhs (3 * 2 + j.val) := by
  fin_cases i <;> fin_cases j <;>
    simp [mat3_multiply, mat3_transpose, mat3_idx] <;> ring

/-- C3 counterexample: on the all-zero (hence singular) matrix with an
all-zero output buffer, mat4_inverse_general returns 0 but leaves the output
buffer untouched instead of resetting it to the identity as the claim
states. -/
theorem C3_general_inverse_counterexample :
    mat4_inverse_general ⟨0, 0, 0, 0, 0, 0, 0, 0, 0, 0, 0, 0, 0, 0, 0, 0⟩
        ⟨0, 0, 0, 0, 0, 0, 0, 0, 0, 0, 0, 0, 0, 0, 0, 0⟩ =
      (0, ⟨0, 0, 0, 0, 0, 0, 0, 0, 0, 0, 0, 0, 0, 0, 0, 0⟩) ∧
    (⟨0, 0, 0, 0, 0, 0, 0, 0, 0, 0, 0, 0, 0, 0, 0, 0⟩ : Mat4) ≠ mat4_identity := by
  constructor
  · rw [mat4_inverse_general]
    rw [if_pos]
    norm_num [mat4_determinant, mat4_cofactor, mat4_idx, S_FLOAT_EPSILON]
  · norm_num [mat4_identity, Mat4.mk.injEq]

/-- C3 amended: on a determinant within EPSILON of zero each inverse
returns the failure flag 0, mat4_inverse_affine resets its output to the
identity matrix, while mat4_inverse_general and mat3_inverse leave the
output buffer entirely unchanged (each function tests its own determinant:
the 4x4 determinant for the general inverse, the upper-left 3x3 block
determinant for the affine inverse). -/
theorem C3_singular_inverse_behavior (m3 o3 : Mat3) (m4 m4a o4 o4a : Mat4)
    (h3 : |mat3_determinant m3| < S_FLOAT_EPSILON)
    (h4 : |mat4_determinant m4| < S_FLOAT_EPSILON)
    (ha : |mat4_det3 m4a| < S_FLOAT_EPSILON) :
    mat3_inverse m3 o3 = (0, o3) ∧
    mat4_inverse_general m4 o4 = (0, o4) ∧
    mat4_inverse_affine m4a o4a = (0, mat4_identity) := by
  refine ⟨?_, ?_, ?_⟩
  · rw [mat3_inverse, if_neg (not_not_intro h3)]
  · rw [mat4_inverse_general, if_pos h4]
  · rw [mat4_det3] at ha
    rw [mat4_inverse_affine, if_pos ha]

theorem C3_singular_inverse_behavior_witness :
    (|mat3_determinant ⟨0, 0, 0, 0, 0, 0, 0, 0, 0⟩| < S_FLOAT_EPSILON ∧
     |mat4_determinant ⟨0, 0, 0, 0, 0, 0, 0, 0, 0, 0, 0, 0, 0, 0, 0, 0⟩| < S_FLOAT_EPSILON ∧
     |mat4_det3 ⟨0, 0, 0, 0, 0, 0, 0, 0, 0, 0, 0, 0, 0, 0, 0, 0⟩| < S_FLOAT_EPSILON) ∧
    (mat3_inverse ⟨0, 0, 0, 0, 0, 0, 0, 0, 0⟩ ⟨2, 2, 2, 2, 2, 2, 2, 2, 2⟩ =
       (0, ⟨2, 2, 2, 2, 2, 2, 2, 2, 2⟩) ∧
     mat4_inverse_general ⟨0, 0, 0, 0, 0, 0, 0, 0, 0, 0, 0, 0, 0, 0, 0, 0⟩
         ⟨3, 3, 3, 3, 3, 3, 3, 3, 3, 3, 3, 3, 3, 3, 3, 3⟩ =
       (0, ⟨3, 3, 3, 3, 3, 3, 3, 3, 3, 3, 3, 3, 3, 3, 3, 3⟩) ∧
     mat4_inverse_affine ⟨0, 0, 0, 0, 0, 0, 0, 0, 0, 0, 0, 0, 0, 0, 0, 0⟩
         ⟨3, 3, 3, 3, 3, 3, 3, 3, 3, 3, 3, 3, 3, 3, 3, 3⟩ =
       (0, mat4_identity)) :=
  ⟨⟨by norm_num [mat3_determinant, S_FLOAT_EPSILON],
    by norm_num [mat4_determinant, mat4_cofactor, mat4_idx, S_FLOAT_EPSILON],
    by norm_num [mat4_det3, S_FLOAT_EPSILON]⟩,
   C3_singular_inverse_behavior _ _ _ _ _ _
     (by norm_num [mat3_determinant, S_FLOAT_EPSILON])
     (by norm_num [mat4_determinant, mat4_cofactor, mat4_idx, S_FLOAT_EPSILON])
     (by norm_num [mat4_det3, S_FLOAT_EPSILON])⟩

lemma not_small_sqrt_two_half : ¬ (|Real.sqrt 2 * 0.5| < S_FLOAT_EPSILON) := by
  rw [abs_of_nonneg (by positivity), S_FLOAT_EPSILON, not_lt]
  nlinarith [one_lt_sqrt_two]

/-- C5 counterexample: on the 180-degree Z rotation matrix diag(-1,-1,1)
(trace -1), quat_from_mat3 picks pivot index 2 but sets the pivot component
to sqrt(2)/2, not the claimed sqrt(m22 - (m00 + m11) + 1)/2 = sqrt(4)/2 = 1:
the source takes sqrt of mat[4] - (mat[0] + mat[4]) + 1. -/
theorem C5_pivot_counterexample :
    quat_from_mat3 ⟨-1, 0, 0, 0, -1, 0, 0, 0, 1⟩ = ⟨0, 0, Real.sqrt 2 * 0.5, 0⟩ ∧
    Real.sqrt 2 * 0.5 ≠ Real.sqrt (1 - (-1 + -1) + 1) * 0.5 := by
  constructor
  · rw [quat_from_mat3]
    have harg : ((-1 : ℝ) - (-1 + -1) + 1.0) = 2 := by norm_num
    rw [if_neg (by norm_num)]
    rw [if_pos (by norm_num)]
    simp only [harg]
    rw [if_neg not_small_sqrt_two_half]
    norm_num
  · have h4 : ((1 : ℝ) - (-1 + -1) + 1) = 4 := by norm_num
    have hs4 : Real.sqrt 4 = 2 := by
      rw [show (4 : ℝ) = 2 ^ 2 by norm_num, Real.sqrt_sq (by norm_num)]
    rw [h4, hs4]
    intro hcon
    nlinarith [sqrt_two_lt_two]

/-- C5 amended: on a non-positive trace quat_from_mat3 behaves exactly as
quat_from_mat3_pivot_spec describes: the pivot index comes from the
comparison chain (2 if m22 > m00, else 1 if m11 > m00, else 0, which does
not always select the largest diagonal entry), the pivot component is
sqrt(quat_pivot_arg)/2 where the index-2 argument is m11 - (m00 + m11) + 1,
and when that square root is within EPSILON of zero the reciprocal scale is
skipped, leaving the remaining components scaled by the unscaled r. -/
theorem C5_pivot_amended (m : Mat3) (h : m.m0 + m.m4 + m.m8 ≤ 0) :
    quat_from_mat3 m = quat_from_mat3_pivot_spec m := by
  by_cases h8 : m.m8 > m.m0
  · simp only [quat_from_mat3, quat_from_mat3_pivot_spec, quat_pivot_index,
      quat_pivot_arg, if_neg (not_lt.mpr h), if_pos h8]
  · by_cases h4 : m.m4 > m.m0
    · simp only [quat_from_mat3, quat_from_mat3_pivot_spec, quat_pivot_index,
        quat_pivot_arg, if_neg (not_lt.mpr h), if_neg h8, if_pos h4]
    · simp only [quat_from_mat3, quat_from_mat3_pivot_spec, quat_pivot_index,
        quat_pivot_arg, if_neg (not_lt.mpr h), if_neg h8, if_neg h4]

theorem C5_pivot_amended_witness :
    ((⟨-1, 0, 0, 0, -1, 0, 0, 0, 1⟩ : Mat3).m0 + (⟨-1, 0, 0, 0, -1, 0, 0, 0, 1⟩ : Mat3).m4 +
        (⟨-1, 0, 0, 0, -1, 0, 0, 0, 1⟩ : Mat3).m8 ≤ 0) ∧
    quat_from_mat3 ⟨-1, 0, 0, 0, -1, 0, 0, 0, 1⟩ =
      quat_from_mat3_pivot_spec ⟨-1, 0, 0, 0, -1, 0, 0, 0, 1⟩ :=
  ⟨by norm_num, C5_pivot_amended ⟨-1, 0, 0, 0, -1, 0, 0, 0, 1⟩ (by norm_num)⟩

/-- C1: the unit quaternion (0,0,1,0) — a 180-degree rotation about Z, one
of the axis-aligned samples the claim names — does not survive the round
trip.  mat3_from_quat squares the z component where y*z is intended, and
quat_from_mat3 then returns (0, 2*sqrt 2, sqrt 2 / 2, 0), which is not
within EPSILON of the quaternion or of its negation in the y component. -/
theorem C1_roundtrip_fails :
    quat_from_mat3 (mat3_from_quat ⟨0, 0, 1, 0⟩) =
      ⟨0, 2 * Real.sqrt 2, Real.sqrt 2 * 0.5, 0⟩ ∧
    ¬ vec4_equals (quat_from_mat3 (mat3_from_quat ⟨0, 0, 1, 0⟩)) ⟨0, 0, 1, 0⟩ ∧
    ¬ vec4_equals (quat_from_mat3 (mat3_from_quat ⟨0, 0, 1, 0⟩))
        (quat_negate ⟨0, 0, 1, 0⟩) := by
  have e1 : mat3_from_quat ⟨0, 0, 1, 0⟩ = ⟨-1, 0, 0, 0, -1, 2, 0, 2, 1⟩ := by
    rw [mat3_from_quat]
    norm_num
  have e2 : quat_from_mat3 (⟨-1, 0, 0, 0, -1, 2, 0, 2, 1⟩ : Mat3) =
      ⟨0, 2 * Real.sqrt 2, Real.sqrt 2 * 0.5, 0⟩ := by
    rw [quat_from_mat3]
    have harg : ((-1 : ℝ) - (-1 + -1) + 1.0) = 2 := by norm_num
    rw [if_neg (by norm_num)]
    rw [if_pos (by norm_num)]
    simp only [harg]
    rw [if_neg not_small_sqrt_two_half]
    have hne : Real.sqrt 2 ≠ 0 := by positivity
    norm_num [Vec4.mk.injEq]
    field_simp
    nlinarith [sqrt_two_mul_self]
  have e : quat_from_mat3 (mat3_from_quat ⟨0, 0, 1, 0⟩) =
      ⟨0, 2 * Real.sqrt 2, Real.sqrt 2 * 0.5, 0⟩ := by rw [e1, e2]
  refine ⟨e, ?_, ?_⟩
  · rw [e]
    rintro ⟨-, h2, -⟩
    rw [float_equals, float_is_zero, S_FLOAT_EPSILON, sub_zero,
      abs_of_nonneg (by positivity)] at h2
    nlinarith [one_lt_sqrt_two]
  · rw [e]
    rintro ⟨-, h2, -⟩
    rw [quat_negate] at h2
    rw [float_equals, float_is_zero, S_FLOAT_EPSILON] at h2
    rw [show (2 * Real.sqrt 2 - -(0 : ℝ)) = 2 * Real.sqrt 2 by ring,
      abs_of_nonneg (by positivity)] at h2
    nlinarith [one_lt_sqrt_two]

/-- C6: on the input [[1,0,1],[0,1,0],[0,0,1]] (linearly independent rows)
the first output row of mat3_orthogonal is the normalized INPUT first row
(1/sqrt 2, 0, 1/sqrt 2) — the cross product written there is immediately
overwritten — instead of the normalized cross(row1, row2) = (1,0,0), and
rows 0 and 2 of the output are far from orthogonal: their dot product is
1/sqrt 2, not within EPSILON of zero. -/
theorem C6_orthogonal_bug :
    mat3_rowR (mat3_orthogonal ⟨1, 0, 1, 0, 1, 0, 0, 0, 1⟩) ≠
      vec3_normalize (vec3_cross_std (mat3_rowS ⟨1, 0, 1, 0, 1, 0, 0, 0, 1⟩)
        (mat3_rowT ⟨1, 0, 1, 0, 1, 0, 0, 0, 1⟩)) ∧
    ¬ float_is_zero (vec3_dot_product
        (mat3_rowR (mat3_orthogonal ⟨1, 0, 1, 0, 1, 0, 0, 0, 1⟩))
        (mat3_rowT (mat3_orthogonal ⟨1, 0, 1, 0, 1, 0, 0, 0, 1⟩))) := by
  have hs2 : Real.sqrt 2 ≠ 0 := by positivity
  have e : mat3_orthogonal ⟨1, 0, 1, 0, 1, 0, 0, 0, 1⟩ =
      ⟨1 / Real.sqrt 2, 0, 1 / Real.sqrt 2, 0, -1, 0, 0, 0, 1⟩ := by
    rw [mat3_orthogonal]
    norm_num [mat3_rowR, mat3_rowS, mat3_rowT, mat3_of_rows, vec3_normalize,
      vec3_length, vec3_cross_product, Real.sqrt_eq_zero', Mat3.mk.injEq]
  have hhalf : (1 : ℝ) / 2 ≤ 1 / Real.sqrt 2 := by
    apply one_div_le_one_div_of_le
    · positivity
    · linarith [sqrt_two_lt_two]
  constructor
  · rw [e]
    have eR : vec3_normalize (vec3_cross_std (mat3_rowS ⟨1, 0, 1, 0, 1, 0, 0, 0, 1⟩)
        (mat3_rowT ⟨1, 0, 1, 0, 1, 0, 0, 0, 1⟩)) = ⟨1, 0, 0⟩ := by
      norm_num [mat3_rowS, mat3_rowT, vec3_cross_std, vec3_normalize, vec3_length]
    rw [eR, mat3_rowR]
    simp only [ne_eq, Vec3.mk.injEq, not_and]
    intro hx
    exfalso
    rw [div_eq_one_iff_eq hs2] at hx
    nlinarith [one_lt_sqrt_two]
  · rw [e]
    have hd : vec3_dot_product
        (mat3_rowR ⟨1 / Real.sqrt 2, 0, 1 / Real.sqrt 2, 0, -1, 0, 0, 0, 1⟩)
        (mat3_rowT ⟨1 / Real.sqrt 2, 0, 1 / Real.sqrt 2, 0, -1, 0, 0, 0, 1⟩) =
        1 / Real.sqrt 2 := by
      norm_num [vec3_dot_product, mat3_rowR, mat3_rowT]
    rw [hd, float_is_zero, S_FLOAT_EPSILON, abs_of_nonneg (by positivity), not_lt]
    have : (1e-9 : ℝ) ≤ 1 / 2 := by norm_num
    linarith

lemma rotZ90_apply :
    mat3_rotate_vec3 (mat3_rotation 90 0 0 1) ⟨1, 0, 0⟩ =
      ⟨Real.cos 1.5707961, -Real.sin 1.5707961, 0⟩ := by
  simp only [mat3_rotate_vec3, mat3_rotation, mat3_transpose]
  rw [show (90 : ℝ) * S_DEG2RAD = 1.5707961 by rw [S_DEG2RAD]; norm_num]
  norm_num [Vec3.mk.injEq]

/-- C8 counterexample: the library applies matrices to row vectors, so the
90-degree Z rotation sends (1,0,0) to (cos, -sin, 0) of 90 * S_DEG2RAD;
the y component is about -1, not within EPSILON of the claimed +1. -/
theorem C8_rotation_counterexample :
    ¬ vec3_equals (mat3_rotate_vec3 (mat3_rotation 90 0 0 1) ⟨1, 0, 0⟩) ⟨0, 1, 0⟩ := by
  rw [rotZ90_apply]
  rintro ⟨-, h2, -⟩
  rw [float_equals, float_is_zero, S_FLOAT_EPSILON] at h2
  have hs : 0 ≤ Real.sin 1.5707961 := by
    apply Real.sin_nonneg_of_nonneg_of_le_pi
    · norm_num
    · linarith [Real.pi_gt_d6]
  rw [show (-Real.sin 1.5707961 - 1) = -(Real.sin 1.5707961 + 1) by ring, abs_neg,
    abs_of_nonneg (by linarith)] at h2
  have : (1e-9 : ℝ) < 1 := by norm_num
  linarith

/-- C8 amended: the rotation of (1,0,0) by mat3_rotation(90,0,0,1) is
(0,-1,0), not (0,1,0): the z component is exactly 0, the y component is
within EPSILON of -1, and the x component equals cos(90 * S_DEG2RAD), which
lies strictly between EPSILON and 1e-6 because the S_DEG2RAD constant is
truncated (90 * S_DEG2RAD is about 2.27e-7 short of pi/2). -/
theorem C8_rotation_corrected :
    (mat3_rotate_vec3 (mat3_rotation 90 0 0 1) ⟨1, 0, 0⟩).z = 0 ∧
    float_equals (mat3_rotate_vec3 (mat3_rotation 90 0 0 1) ⟨1, 0, 0⟩).y (-1) ∧
    S_FLOAT_EPSILON < (mat3_rotate_vec3 (mat3_rotation 90 0 0 1) ⟨1, 0, 0⟩).x ∧
    (mat3_rotate_vec3 (mat3_rotation 90 0 0 1) ⟨1, 0, 0⟩).x < 1e-6 := by
  rw [rotZ90_apply]
  have hpg := Real.pi_gt_d20
  have hpl := Real.pi_lt_d20
  have ht1 : (2e-7 : ℝ) < Real.pi / 2 - 1.5707961 := by linarith
  have ht2 : Real.pi / 2 - 1.5707961 < (2.3e-7 : ℝ) := by linarith
  have ht0 : (0 : ℝ) < Real.pi / 2 - 1.5707961 := by linarith
  have hcos : Real.cos 1.5707961 = Real.sin (Real.pi / 2 - 1.5707961) :=
    (Real.sin_pi_div_two_sub 1.5707961).symm
  have hsin : Real.sin 1.5707961 = Real.cos (Real.pi / 2 - 1.5707961) :=
    (Real.cos_pi_div_two_sub 1.5707961).symm
  have ht2a : (Real.pi / 2 - 1.5707961) ^ 2 < (2.3e-7 : ℝ) ^ 2 := by nlinarith
  have ht3 : (Real.pi / 2 - 1.5707961) ^ 3 < (2.3e-7 : ℝ) ^ 3 := by nlinarith
  have hc2 : ((2.3e-7 : ℝ)) ^ 2 = 5.29e-14 := by norm_num
  have hc3 : ((2.3e-7 : ℝ)) ^ 3 = 1.2167e-20 := by norm_num
  refine ⟨rfl, ?_, ?_, ?_⟩
  · show float_equals (-Real.sin 1.5707961) (-1)
    rw [float_equals, float_is_zero, S_FLOAT_EPSILON]
    rw [show (-Real.sin 1.5707961 - (-1 : ℝ)) = 1 - Real.sin 1.5707961 by ring,
      abs_of_nonneg (by linarith [Real.sin_le_one (1.5707961 : ℝ)])]
    have hcb := Real.one_sub_sq_div_two_le_cos (x := Real.pi / 2 - 1.5707961)
    rw [hsin]
    nlinarith
  · show S_FLOAT_EPSILON < Real.cos 1.5707961
    rw [S_FLOAT_EPSILON, hcos]
    have hgt := Real.sin_gt_sub_cube ht0 (le_of_lt (lt_trans ht2 (by norm_num)))
    nlinarith
  · show Real.cos 1.5707961 < 1e-6
    rw [hcos]
    have hle := Real.abs_sin_le_abs (x := Real.pi / 2 - 1.5707961)
    have := le_abs_self (Real.sin (Real.pi / 2 - 1.5707961))
    rw [abs_of_pos ht0] at hle
    linarith

/-- C9 confirmed: quat_slerp computes exactly the reference formula the
specification describes — negate the target when the dot product is
negative, clamp the parameter to [0,1], take angle = acos(dot) of the
post-negation (absolute) dot, and blend with scale factors
sin((1-t)*angle)/sin(dot) and sin(t*angle)/sin(dot), the reciprocal sine
taken of dot itself rather than of the angle. -/
theorem C9_slerp_matches_reference (qf qt : Vec4) (t : ℝ) :
    quat_slerp qf qt t = quat_slerp_spec qf qt t := by
  by_cases hd : vec4_dot_product qf qt < 0
  · simp only [quat_slerp, quat_slerp_spec, vec4_negate, vec4_add, vec4_scale,
      if_pos hd, abs_of_neg hd, Vec4.mk.injEq]
    refine ⟨?_, ?_, ?_, ?_⟩ <;> ring
  · simp only [quat_slerp, quat_slerp_spec, vec4_negate, vec4_add, vec4_scale,
      if_neg hd, abs_of_nonneg (not_lt.mp hd), Vec4.mk.injEq]
    refine ⟨?_, ?_, ?_, ?_⟩ <;> ring

end

end Snow
